import Mathlib

/-!
Shallow embedding of the Tailscale Network Traffic Monitor
(agent-side metrics engine and collector-side ingestion/aggregation),
verified against the natural-language specification.

Conventions of the embedding:
* Python `float` timestamps and rates are modelled as `ℚ` (the code performs
  only field operations and comparisons on them).
* Byte/packet counters are `ℕ` (psutil counters are non-negative integers);
  intermediate deltas that can go negative in the Python code are `ℤ`.
* Python `None` becomes `Option`.
* A database transaction is one pure state transition `DB → DB`; everything
  added between `db.add`/`db.flush` and `db.commit` becomes visible in the
  single returned state, which models the atomicity of the commit.
-/

namespace TailscaleMonitor

/-! ### Shared constants (shared/constants.py) -/

def AGENT_TIMEOUT_SECONDS : ℚ := 300

def RETRY_BACKOFF_SECONDS : List ℕ := [1, 2, 5, 10, 30]

/-- `BYTES_TO_GB = 1024 ** 3` -/
def BYTES_TO_GB : ℚ := 1024 ^ 3

/-- `BYTES_TO_MBPS = 8 / (1024 ** 2)` : bytes/sec → megabits/sec. -/
def BYTES_TO_MBPS : ℚ := 8 / 1024 ^ 2

def TAILSCALE_IP_PREFIX : String := "100."

def STATUS_ONLINE : String := "online"

def STATUS_OFFLINE : String := "offline"

/-! ### Bandwidth estimator (agent/src/monitor.py, NetworkMonitor.calculate_bandwidth)

The Python object holds `prev_bytes_sent`, `prev_bytes_recv`,
`prev_timestamp`, all `None` initially and always assigned together. -/

structure MonitorState where
  prev_bytes_sent : Option ℕ
  prev_bytes_recv : Option ℕ
  prev_timestamp : Option ℚ
deriving Repr, DecidableEq

/-- The per-direction delta of monitor.py lines 141–148: start from
`current - previous`, and if that is negative (counter reset) use the
current absolute counter value instead. -/
def deltaUsed (prev cur : ℕ) : ℤ :=
  let d : ℤ := (cur : ℤ) - (prev : ℤ)
  if d < 0 then (cur : ℤ) else d

/-- `NetworkMonitor.calculate_bandwidth`, returning the `(upload_mbps,
download_mbps)` pair together with the updated monitor state. -/
def calculate_bandwidth (st : MonitorState) (bytes_sent bytes_recv : ℕ)
    (timestamp : ℚ) : (ℚ × ℚ) × MonitorState :=
  match st.prev_bytes_sent, st.prev_bytes_recv, st.prev_timestamp with
  | none, _, _ =>
      -- first measurement: store baseline, report (0, 0)
      ((0, 0), ⟨some bytes_sent, some bytes_recv, some timestamp⟩)
  | some pbs, some pbr, some pts =>
      let time_elapsed := timestamp - pts
      if time_elapsed ≤ 0 then
        ((0, 0), st)
      else
        let sent_delta := deltaUsed pbs bytes_sent
        let recv_delta := deltaUsed pbr bytes_recv
        let upload_mbps := ((sent_delta : ℚ) / time_elapsed) * BYTES_TO_MBPS
        let download_mbps := ((recv_delta : ℚ) / time_elapsed) * BYTES_TO_MBPS
        ((upload_mbps, download_mbps),
          ⟨some bytes_sent, some bytes_recv, some timestamp⟩)
  | some _, none, _ | some _, _, none =>
      -- unreachable: the three fields are always populated together
      ((0, 0), st)

/-! ### Connection aggregator (agent/src/monitor.py, NetworkMonitor.get_active_connections) -/

/-- A raw entry of `psutil.net_connections(kind='inet')`: local IP (when the
socket has a local address), remote (IP, port) (when connected), and the
status string.  `none` models a missing/falsy field. -/
structure RawConn where
  laddr : Option String
  raddr : Option (String × ℕ)
  status : Option String
deriving Repr, DecidableEq

/-- `shared/schemas.py` `ConnectionInfo`. -/
structure ConnectionInfo where
  ip : String
  hostname : Option String
  bytes : ℕ
  port : Option ℕ
  state : Option String
deriving Repr, DecidableEq

/-- Python's `str.startswith`, expressed on the character lists. -/
def strStartsWith (s pre : String) : Bool :=
  pre.data.isPrefixOf s.data

/-- The filtering `continue`s of monitor.py lines 180–189: keep a connection
only when it has both endpoints, its local IP is the monitored Tailscale IP
and its remote IP lies in the Tailscale prefix; yield (remote ip, remote
port, status). -/
def connFilter (tailscale_ip : String) (c : RawConn) :
    Option (String × ℕ × Option String) :=
  match c.laddr, c.raddr with
  | some lip, some (rip, rport) =>
      if lip = tailscale_ip ∧ strStartsWith rip TAILSCALE_IP_PREFIX then
        some (rip, rport, c.status)
      else none
  | _, _ => none

/-- Per-remote-IP aggregation record (`conn_map[remote_ip]`): the sets of
observed ports and (truthy) states, plus the byte counter that the code
initialises to 0.  Python sets are modelled as insertion-ordered
duplicate-free lists. -/
structure PeerAgg where
  ports : List ℕ
  states : List String
  bytes : ℕ
deriving Repr, DecidableEq

/-- `set.add`: append if not already present. -/
def setAdd {α : Type} [DecidableEq α] (s : List α) (x : α) : List α :=
  if x ∈ s then s else s ++ [x]

/-- `if conn.status: states.add(conn.status)` — a `None` or empty status
string is falsy and is not recorded. -/
def addStatus (s : List String) (status : Option String) : List String :=
  match status with
  | some st => if st = "" then s else setAdd s st
  | none => s

/-- Insert one filtered connection into the aggregation map (monitor.py
lines 192–203).  The map is an insertion-ordered association list, matching
Python dict iteration order. -/
def addConn (m : List (String × PeerAgg)) (rip : String) (rport : ℕ)
    (status : Option String) : List (String × PeerAgg) :=
  match m with
  | [] => [(rip, { ports := [rport], states := addStatus [] status, bytes := 0 })]
  | (k, agg) :: rest =>
      if k = rip then
        (k, { agg with
              ports := setAdd agg.ports rport
              states := addStatus agg.states status }) :: rest
      else
        (k, agg) :: addConn rest rip rport status

/-- Build `conn_map` from the raw connection list. -/
def buildMap (tailscale_ip : String) (raw : List RawConn) :
    List (String × PeerAgg) :=
  raw.foldl (fun m c =>
    match connFilter tailscale_ip c with
    | none => m
    | some (rip, rport, status) => addConn m rip rport status) []

/-- The representative state (monitor.py line 212): `"ESTABLISHED"` when
present among the observed states, else an arbitrary observed state (the
model picks the first-recorded one; CPython set iteration order is
unspecified there) or `none` when no state was recorded. -/
def reprState (states : List String) : Option String :=
  if "ESTABLISHED" ∈ states then some "ESTABLISHED" else states.head?

/-- The `ConnectionInfo` built from one aggregated peer (monitor.py lines
206–220): `port = min(ports)` (None if empty), the representative state,
and the best-effort hostname from the external resolver. -/
def peerToConnInfo (resolve : String → Option String)
    (p : String × PeerAgg) : ConnectionInfo :=
  { ip := p.1
    hostname := resolve p.1
    bytes := p.2.bytes
    port := p.2.ports.min?
    state := reprState p.2.states }

/-- `NetworkMonitor.get_active_connections`: filter, aggregate by remote IP,
then emit one `ConnectionInfo` per peer.  Hostname resolution is external
I/O, passed in as `resolve`. -/
def get_active_connections (tailscale_ip : String)
    (resolve : String → Option String) (raw : List RawConn) :
    List ConnectionInfo :=
  (buildMap tailscale_ip raw).map (peerToConnInfo resolve)

/-- The filtered raw entries, as (remote ip, remote port, status) triples. -/
def filteredConns (tailscale_ip : String) (raw : List RawConn) :
    List (String × ℕ × Option String) :=
  raw.filterMap (connFilter tailscale_ip)

/-- The ports observed (after filtering) for one remote IP. -/
def observedPorts (tailscale_ip : String) (raw : List RawConn)
    (rip : String) : List ℕ :=
  ((filteredConns tailscale_ip raw).filter (fun t => t.1 = rip)).map
    (fun t => t.2.1)

/-- The truthy states observed (after filtering) for one remote IP. -/
def observedStates (tailscale_ip : String) (raw : List RawConn)
    (rip : String) : List String :=
  ((filteredConns tailscale_ip raw).filter (fun t => t.1 = rip)).filterMap
    (fun t => match t.2.2 with
      | some st => if st = "" then none else some st
      | none => none)

/-! ### Submission client (agent/src/collector_client.py, CollectorClient.submit_metrics)

The outcome of one HTTP POST attempt is environmental; the loop is modelled
against an oracle `env : ℕ → AttemptOutcome` giving the outcome of each
attempt.  The model returns the boolean result together with the observable
trace of the loop: how many attempts were made and which backoff sleeps
were performed. -/

inductive AttemptOutcome where
  | success
  | httpError (status : ℕ)
  | connectionError
  | timeout
  | otherError
deriving Repr, DecidableEq

/-- An outcome on which the Python loop falls through to the backoff/retry
code: every failure except an HTTP 401. -/
def retryable : AttemptOutcome → Prop
  | .success => False
  | .httpError s => s ≠ 401
  | .connectionError => True
  | .timeout => True
  | .otherError => True

instance : DecidablePred retryable := fun o => by
  cases o <;> simp [retryable] <;> infer_instance

/-- The backoff slept after attempt number `attempt`:
`RETRY_BACKOFF_SECONDS[min(attempt, len(RETRY_BACKOFF_SECONDS) - 1)]`. -/
def backoffFor (attempt : ℕ) : ℕ :=
  RETRY_BACKOFF_SECONDS.getD
    (min attempt (RETRY_BACKOFF_SECONDS.length - 1)) 0

/-- One iteration of `for attempt in range(retry_attempts)` starting at
`attempt`, returning (result, attempts made from here, sleeps performed
from here).  A success returns `true` at once; a 401 returns `false` at
once; any other failure sleeps `backoffFor attempt` and continues — except
on the last attempt, where the loop ends and the function returns
`false`. -/
def submitLoop (retry_attempts : ℕ) (env : ℕ → AttemptOutcome)
    (attempt : ℕ) : Bool × ℕ × List ℕ :=
  if _h : attempt < retry_attempts then
    match env attempt with
    | .success => (true, 1, [])
    | .httpError s =>
        if s = 401 then (false, 1, [])
        else if attempt < retry_attempts - 1 then
          let r := submitLoop retry_attempts env (attempt + 1)
          (r.1, r.2.1 + 1, backoffFor attempt :: r.2.2)
        else (false, 1, [])
    | .connectionError =>
        if attempt < retry_attempts - 1 then
          let r := submitLoop retry_attempts env (attempt + 1)
          (r.1, r.2.1 + 1, backoffFor attempt :: r.2.2)
        else (false, 1, [])
    | .timeout =>
        if attempt < retry_attempts - 1 then
          let r := submitLoop retry_attempts env (attempt + 1)
          (r.1, r.2.1 + 1, backoffFor attempt :: r.2.2)
        else (false, 1, [])
    | .otherError =>
        if attempt < retry_attempts - 1 then
          let r := submitLoop retry_attempts env (attempt + 1)
          (r.1, r.2.1 + 1, backoffFor attempt :: r.2.2)
        else (false, 1, [])
  else (false, 0, [])
termination_by retry_attempts - attempt

/-- `CollectorClient.submit_metrics` with `retry_attempts` attempts. -/
def submit_metrics_client (env : ℕ → AttemptOutcome)
    (retry_attempts : ℕ) : Bool × ℕ × List ℕ :=
  submitLoop retry_attempts env 0

/-! ### Collector database model (collector/src/database/models.py)

Rows are modelled as structures, tables as lists in insertion order (SQLite
autoincrement ids are handed out from `next_metric_id`).  Timestamps
(`datetime`) are `ℚ` seconds. -/

structure Agent where
  id : String
  hostname : String
  tailscale_ip : String
  os_type : String
  api_key_hash : String
  first_seen : ℚ
  last_seen : ℚ
  status : String
deriving Repr, DecidableEq

structure Metric where
  id : ℕ
  agent_id : String
  timestamp : ℚ
  bytes_sent : ℕ
  bytes_received : ℕ
  packets_sent : ℕ
  packets_received : ℕ
  upload_mbps : ℚ
  download_mbps : ℚ
  active_connections : ℕ
deriving Repr, DecidableEq

structure Connection where
  metric_id : ℕ
  remote_ip : String
  remote_hostname : Option String
  remote_port : Option ℕ
  bytes_transferred : ℕ
  state : Option String
deriving Repr, DecidableEq

structure DB where
  agents : List Agent
  metrics : List Metric
  connections : List Connection
  next_metric_id : ℕ
deriving Repr, DecidableEq

/-! ### Ingestion payload (shared/schemas.py) -/

structure MetricsData where
  bytes_sent : ℕ
  bytes_received : ℕ
  current_upload_mbps : ℚ
  current_download_mbps : ℚ
  packets_sent : ℕ
  packets_received : ℕ
  active_connections : List ConnectionInfo
deriving Repr, DecidableEq

structure MetricSubmission where
  hostname : String
  timestamp : ℚ
  tailscale_ip : String
  metrics : MetricsData
deriving Repr, DecidableEq

/-! ### Ingestion (collector/src/api/routes.py, submit_metrics)

The route body between entry and `db.commit()` is one transaction: the
model performs the whole of it as a single `DB → DB` transition, so a
partially written snapshot is never an observable state. -/

/-- `POST /metrics` handler for an already-authenticated `agent_id`:
insert one `Metric` row, one `Connection` row per submitted peer (each
carrying the fresh metric id obtained by `db.flush()`), and update the
sender's `last_seen`/`status`. -/
def submit_metrics (db : DB) (agent_id : String) (sub : MetricSubmission)
    (now : ℚ) : DB :=
  let mid := db.next_metric_id
  let metric : Metric :=
    { id := mid
      agent_id := agent_id
      timestamp := sub.timestamp
      bytes_sent := sub.metrics.bytes_sent
      bytes_received := sub.metrics.bytes_received
      packets_sent := sub.metrics.packets_sent
      packets_received := sub.metrics.packets_received
      upload_mbps := sub.metrics.current_upload_mbps
      download_mbps := sub.metrics.current_download_mbps
      active_connections := sub.metrics.active_connections.length }
  let newConns : List Connection :=
    sub.metrics.active_connections.map fun ci =>
      { metric_id := mid
        remote_ip := ci.ip
        remote_hostname := ci.hostname
        remote_port := ci.port
        bytes_transferred := ci.bytes
        state := ci.state }
  { agents := db.agents.map fun a =>
      if a.id = agent_id then { a with last_seen := now, status := STATUS_ONLINE }
      else a
    metrics := db.metrics ++ [metric]
    connections := db.connections ++ newConns
    next_metric_id := mid + 1 }

/-! ### Liveness sweeper (collector/src/api/auth.py, check_agent_timeout) -/

/-- The per-agent effect of the sweep: an agent matched by the query
(`last_seen < now - timeout` and `status != "offline"`) is set offline,
any other agent is untouched. -/
def sweepAgent (now timeout_seconds : ℚ) (a : Agent) : Agent :=
  if a.last_seen < now - timeout_seconds ∧ a.status ≠ STATUS_OFFLINE then
    { a with status := STATUS_OFFLINE }
  else a

/-- `check_agent_timeout`: flip every stale non-offline agent to offline
(committed with the enclosing read, same transaction). -/
def check_agent_timeout (db : DB) (now : ℚ) (timeout_seconds : ℚ) : DB :=
  { db with agents := db.agents.map (sweepAgent now timeout_seconds) }

/-! ### Registration (collector/src/api/routes.py, register_agent) -/

structure AgentRegistration where
  hostname : String
  tailscale_ip : String
  os_type : String
deriving Repr, DecidableEq

structure AgentRegistrationResponse where
  agent_id : String
  api_key : String
deriving Repr, DecidableEq

/-- `POST /register`: 409 (`Except.error 409`) when an agent with the
requested `tailscale_ip` exists, leaving the database untouched; otherwise
insert a fresh agent (random id, key and its hash are environmental inputs
`new_id`, `new_key`, `key_hash`) and return the id with the plaintext key
exactly once. -/
def register_agent (db : DB) (reg : AgentRegistration)
    (new_id new_key key_hash : String) (now : ℚ) :
    Except ℕ (DB × AgentRegistrationResponse) :=
  match db.agents.find? (fun a => a.tailscale_ip = reg.tailscale_ip) with
  | some _ => .error 409
  | none =>
      let agent : Agent :=
        { id := new_id
          hostname := reg.hostname
          tailscale_ip := reg.tailscale_ip
          os_type := reg.os_type
          api_key_hash := key_hash
          first_seen := now
          last_seen := now
          status := STATUS_ONLINE }
      .ok ({ db with agents := db.agents ++ [agent] },
           { agent_id := new_id, api_key := new_key })

/-! ### Aggregation engine (collector/src/api/routes.py) -/

/-- Integer rounding half-to-even, as Python's `round`. -/
def roundHalfEven (q : ℚ) : ℤ :=
  if q - ⌊q⌋ < 1 / 2 then ⌊q⌋
  else if 1 / 2 < q - ⌊q⌋ then ⌊q⌋ + 1
  else if 2 ∣ ⌊q⌋ then ⌊q⌋ else ⌊q⌋ + 1

/-- Python `round(x, 2)`. -/
def round2 (q : ℚ) : ℚ := (roundHalfEven (q * 100) : ℚ) / 100

/-- The row with the largest `id` in a list of metrics (`func.max(Metric.id)`
of the dashboard's grouped subquery); `id` is the unique primary key. -/
def maxIdMetric : List Metric → Option Metric
  | [] => none
  | m :: ms =>
      match maxIdMetric ms with
      | none => some m
      | some m' => if m.id ≥ m'.id then some m else some m'

/-- The dashboard's `latest_metrics`: for each agent id appearing in the
metrics table, the metric with the maximal id for that agent. -/
def latest_metrics (db : DB) : List Metric :=
  ((db.metrics.map (fun m => m.agent_id)).dedup).filterMap fun aid =>
    maxIdMetric (db.metrics.filter (fun m => m.agent_id = aid))

structure DashboardSummary where
  total_hosts : ℕ
  online_hosts : ℕ
  offline_hosts : ℕ
  total_traffic_gb : ℚ
  avg_bandwidth_mbps : ℚ
deriving Repr, DecidableEq

/-- The dashboard computation on an (already swept) database state. -/
def dashboardOf (db : DB) : DashboardSummary :=
  let total_hosts := db.agents.length
  let online_hosts := (db.agents.filter (fun a => a.status = STATUS_ONLINE)).length
  let offline_hosts := total_hosts - online_hosts
  let latest := latest_metrics db
  let total_bytes : ℕ := (latest.map (fun m => m.bytes_sent + m.bytes_received)).sum
  let total_traffic_gb : ℚ :=
    if total_bytes ≠ 0 then (total_bytes : ℚ) / BYTES_TO_GB else 0
  let avg_bandwidth := (latest.map (fun m => m.upload_mbps + m.download_mbps)).sum
  let avg_bandwidth_mbps := avg_bandwidth / ((max latest.length 1 : ℕ) : ℚ)
  { total_hosts := total_hosts
    online_hosts := online_hosts
    offline_hosts := offline_hosts
    total_traffic_gb := round2 total_traffic_gb
    avg_bandwidth_mbps := round2 avg_bandwidth_mbps }

/-- `GET /dashboard`: sweep stale agents, then compute the summary. -/
def get_dashboard (db : DB) (now : ℚ) : DashboardSummary :=
  dashboardOf (check_agent_timeout db now AGENT_TIMEOUT_SECONDS)

structure AgentInfo where
  id : String
  hostname : String
  tailscale_ip : String
  status : String
  first_seen : ℚ
  last_seen : ℚ
  os_type : String
deriving Repr, DecidableEq

/-- `GET /agents`: sweep stale agents, then list them all. -/
def list_agents (db : DB) (now : ℚ) : List AgentInfo :=
  let db := check_agent_timeout db now AGENT_TIMEOUT_SECONDS
  db.agents.map fun a =>
    { id := a.id
      hostname := a.hostname
      tailscale_ip := a.tailscale_ip
      status := a.status
      first_seen := a.first_seen
      last_seen := a.last_seen
      os_type := a.os_type }

/-- The metric with the largest timestamp
(`order_by(desc(Metric.timestamp)).first()`); ties between equal
timestamps are resolved by the storage engine, the model keeps the
earliest-inserted row. -/
def latestByTimestamp : List Metric → Option Metric
  | [] => none
  | m :: ms =>
      match latestByTimestamp ms with
      | none => some m
      | some m' => if m'.timestamp > m.timestamp then some m' else some m

structure TrafficStats where
  sent_gb : ℚ
  received_gb : ℚ
  current_upload : ℚ
  current_download : ℚ
deriving Repr, DecidableEq

/-- The `TrafficStats` built from an agent's latest metric, or the zeroed
placeholder when the agent has never submitted. -/
def trafficOf : Option Metric → TrafficStats
  | some m =>
      { sent_gb := round2 ((m.bytes_sent : ℚ) / BYTES_TO_GB)
        received_gb := round2 ((m.bytes_received : ℚ) / BYTES_TO_GB)
        current_upload := round2 m.upload_mbps
        current_download := round2 m.download_mbps }
  | none =>
      { sent_gb := 0, received_gb := 0, current_upload := 0, current_download := 0 }

structure HostTraffic where
  hostname : String
  ip : String
  status : String
  last_seen : ℚ
  traffic : TrafficStats
deriving Repr, DecidableEq

/-- One agent's `HostTraffic` row. -/
def hostTrafficOf (db : DB) (a : Agent) : HostTraffic :=
  { hostname := a.hostname
    ip := a.tailscale_ip
    status := a.status
    last_seen := a.last_seen
    traffic :=
      trafficOf (latestByTimestamp (db.metrics.filter (fun m => m.agent_id = a.id))) }

/-- `GET /traffic/by-host/{hostname}`: 404 when the hostname is unknown,
else the host's row.  Note: this handler performs no liveness sweep. -/
def get_host_traffic (db : DB) (hostname : String) : Except ℕ HostTraffic :=
  match db.agents.find? (fun a => a.hostname = hostname) with
  | none => .error 404
  | some a => .ok (hostTrafficOf db a)

/-- The joined rows feeding the top-talker query: for each `Connection`
with a resolved remote hostname whose `Metric` lies in the trailing
one-hour window, the pair (reporting hostname, remote hostname) with the
connection's byte count. -/
def summaryRows (db : DB) (now : ℚ) : List ((String × String) × ℕ) :=
  db.connections.filterMap fun c =>
    match c.remote_hostname with
    | none => none
    | some rh =>
        match db.metrics.find? (fun m => m.id = c.metric_id) with
        | none => none
        | some m =>
            if now - 3600 ≤ m.timestamp then
              match db.agents.find? (fun a => a.id = m.agent_id) with
              | some a => some ((a.hostname, rh), c.bytes_transferred)
              | none => none
            else none

/-- `GROUP BY` with `SUM(bytes_transferred)` over the joined rows. -/
def groupSum : List ((String × String) × ℕ) → List ((String × String) × ℕ)
  | [] => []
  | (k, b) :: rest => addGroup (groupSum rest) k b
where
  addGroup : List ((String × String) × ℕ) → String × String → ℕ →
      List ((String × String) × ℕ)
    | [], k, b => [(k, b)]
    | (k', b') :: rest, k, b =>
        if k' = k then (k', b' + b) :: rest else (k', b') :: addGroup rest k b

/-- `ORDER BY total_bytes DESC` (insertion sort). -/
def sortDescBytes : List ((String × String) × ℕ) → List ((String × String) × ℕ)
  | [] => []
  | x :: xs => insertDesc x (sortDescBytes xs)
where
  insertDesc (x : (String × String) × ℕ) :
      List ((String × String) × ℕ) → List ((String × String) × ℕ)
    | [] => [x]
    | y :: ys => if x.2 ≥ y.2 then x :: y :: ys else y :: insertDesc x ys

structure ConnectionPair where
  from_host : String
  to_host : String
  traffic_gb : ℚ
deriving Repr, DecidableEq

/-- The top-10 talker pairs of `GET /traffic/summary`. -/
def topConnections (db : DB) (now : ℚ) : List ConnectionPair :=
  ((sortDescBytes (groupSum (summaryRows db now))).take 10).map fun kb =>
    { from_host := kb.1.1
      to_host := kb.1.2
      traffic_gb :=
        if kb.2 ≠ 0 then round2 ((kb.2 : ℚ) / BYTES_TO_GB) else 0 }

structure TrafficSummaryResponse where
  summary : DashboardSummary
  hosts : List HostTraffic
  top_connections : List ConnectionPair
deriving Repr, DecidableEq

/-- `GET /traffic/summary`: the handler first calls `get_dashboard`, whose
sweep commits into the shared session, so the per-host rows and the
top-talker query all read the swept state. -/
def get_traffic_summary (db : DB) (now : ℚ) : TrafficSummaryResponse :=
  let db' := check_agent_timeout db now AGENT_TIMEOUT_SECONDS
  { summary := dashboardOf db'
    hosts := db'.agents.map (hostTrafficOf db')
    top_connections := topConnections db' now }

/-- Association-list lookup in the aggregation map. -/
def lookupAgg (m : List (String × PeerAgg)) (k : String) : Option PeerAgg :=
  (m.find? (fun p => p.1 = k)).map (fun p => p.2)

/-- The ports a list of filtered triples contributes to key `k`. -/
def portsOf (F : List (String × ℕ × Option String)) (k : String) : List ℕ :=
  (F.filter (fun t => t.1 = k)).map (fun t => t.2.1)

/-- The truthy states a list of filtered triples contributes to key `k`. -/
def statesOf (F : List (String × ℕ × Option String)) (k : String) :
    List String :=
  (F.filter (fun t => t.1 = k)).filterMap
    (fun t => match t.2.2 with
      | some st => if st = "" then none else some st
      | none => none)

/-- One `addConn` step of the aggregation fold, as a binary operation. -/
def stepConn (m : List (String × PeerAgg))
    (t : String × ℕ × Option String) : List (String × PeerAgg) :=
  addConn m t.1 t.2.1 t.2.2

/-- The state-set contribution of one raw status: its truthy value, if
any. -/
def statusContrib (status : Option String) : List String :=
  match status with
  | some st => if st = "" then [] else [st]
  | none => []

/-- Agent seen 301 s ago (timeout 300), for the C2 witness. -/
def staleAgent : Agent :=
  { id := "a1", hostname := "h1", tailscale_ip := "100.64.0.1"
    os_type := "linux", api_key_hash := "x", first_seen := 0
    last_seen := 699, status := "online" }

/-- Agent seen 299 s ago (timeout 300), for the C2 witness. -/
def freshAgent : Agent :=
  { id := "a2", hostname := "h2", tailscale_ip := "100.64.0.2"
    os_type := "linux", api_key_hash := "y", first_seen := 0
    last_seen := 701, status := "online" }

/-- A two-agent database for the C2 witness. -/
def dbSweep : DB :=
  { agents := [staleAgent, freshAgent], metrics := [], connections := []
    next_metric_id := 1 }

/-- A registered agent and two-peer submission for the C1 witness. -/
def subW : MetricSubmission :=
  { hostname := "h1", timestamp := 500, tailscale_ip := "100.64.0.1"
    metrics :=
      { bytes_sent := 1000, bytes_received := 2000
        current_upload_mbps := 1, current_download_mbps := 2
        packets_sent := 10, packets_received := 20
        active_connections :=
          [{ ip := "100.64.0.2", hostname := some "peer1", bytes := 0
             port := some 22, state := some "ESTABLISHED" },
           { ip := "100.64.0.3", hostname := none, bytes := 0
             port := some 443, state := some "TIME_WAIT" }] } }

/-- The data-model invariant of C8: at most one Agent record per tailscale
IP. -/
def atMostOnePerIP (db : DB) : Prop :=
  ∀ ip, (db.agents.filter (fun a => a.tailscale_ip = ip)).length ≤ 1

/-- The attempt-outcome oracle of the C6 witness: a connection error on
attempt 0, then a 401. -/
def envW : ℕ → AttemptOutcome :=
  fun j => if j = 0 then .connectionError else .httpError 401

/-- Two agents for the C7 example database. -/
def agC7A : Agent :=
  { id := "A", hostname := "hA", tailscale_ip := "100.64.0.11"
    os_type := "linux", api_key_hash := "ka", first_seen := 0
    last_seen := 900, status := "online" }

/-- Second agent of the C7 example database. -/
def agC7B : Agent :=
  { id := "B", hostname := "hB", tailscale_ip := "100.64.0.12"
    os_type := "linux", api_key_hash := "kb", first_seen := 0
    last_seen := 900, status := "online" }

/-- A superseded early metric of agent A (must be ignored by the
latest-per-agent rule). -/
def mC7old : Metric :=
  { id := 1, agent_id := "A", timestamp := 100, bytes_sent := 999
    bytes_received := 999, packets_sent := 1, packets_received := 1
    upload_mbps := 3, download_mbps := 4, active_connections := 0 }

/-- Agent A's latest metric: 10 GiB sent, 0 received. -/
def mC7a : Metric :=
  { id := 2, agent_id := "A", timestamp := 200, bytes_sent := 10 * 2 ^ 30
    bytes_received := 0, packets_sent := 2, packets_received := 2
    upload_mbps := 1, download_mbps := 2, active_connections := 0 }

/-- Agent B's latest metric: 0 sent, 5 GiB received. -/
def mC7b : Metric :=
  { id := 3, agent_id := "B", timestamp := 200, bytes_sent := 0
    bytes_received := 5 * 2 ^ 30, packets_sent := 3, packets_received := 3
    upload_mbps := 5, download_mbps := 6, active_connections := 0 }

/-- The C7 example database. -/
def dbC7 : DB :=
  { agents := [agC7A, agC7B], metrics := [mC7old, mC7a, mC7b]
    connections := [], next_metric_id := 4 }

/-- The `AgentInfo` row that `GET /agents` produces for `staleAgent`. -/
def infoStale : AgentInfo :=
  { id := (sweepAgent 1000 AGENT_TIMEOUT_SECONDS staleAgent).id
    hostname := (sweepAgent 1000 AGENT_TIMEOUT_SECONDS staleAgent).hostname
    tailscale_ip := (sweepAgent 1000 AGENT_TIMEOUT_SECONDS staleAgent).tailscale_ip
    status := (sweepAgent 1000 AGENT_TIMEOUT_SECONDS staleAgent).status
    first_seen := (sweepAgent 1000 AGENT_TIMEOUT_SECONDS staleAgent).first_seen
    last_seen := (sweepAgent 1000 AGENT_TIMEOUT_SECONDS staleAgent).last_seen
    os_type := (sweepAgent 1000 AGENT_TIMEOUT_SECONDS staleAgent).os_type }

/-- A one-element raw connection list for the C10 witness. -/
def rawW : List RawConn :=
  [{ laddr := some "100.64.0.1", raddr := some ("100.64.0.2", 22)
     status := some "ESTABLISHED" }]

/-- The `ConnectionInfo` the aggregator emits for `rawW`. -/
def ciW : ConnectionInfo :=
  { ip := "100.64.0.2", hostname := none, bytes := 0, port := some 22
    state := some "ESTABLISHED" }

/-- A metric row in the one-hour window of `now = 1000`, for the C10
witness. -/
def mW : Metric :=
  { id := 10, agent_id := "A", timestamp := 200, bytes_sent := 0
    bytes_received := 0, packets_sent := 0, packets_received := 0
    upload_mbps := 0, download_mbps := 0, active_connections := 1 }

/-- A zero-byte connection row with a resolved hostname, for the C10
witness. -/
def cW : Connection :=
  { metric_id := 10, remote_ip := "100.64.0.2"
    remote_hostname := some "peer", remote_port := some 22
    bytes_transferred := 0, state := some "ESTABLISHED" }

/-- The C10 witness database. -/
def dbC10 : DB :=
  { agents := [agC7A], metrics := [mW], connections := [cW]
    next_metric_id := 11 }

/-- Four raw connection entries for the C5 witness: two for remote
100.64.0.2 (ports 80 and 22), one with a foreign local address, one with a
non-Tailscale remote. -/
def rawC5 : List RawConn :=
  [{ laddr := some "100.64.0.1", raddr := some ("100.64.0.2", 80)
     status := some "TIME_WAIT" },
   { laddr := some "100.64.0.1", raddr := some ("100.64.0.2", 22)
     status := some "ESTABLISHED" },
   { laddr := some "10.0.0.5", raddr := some ("100.64.0.2", 9)
     status := some "ESTABLISHED" },
   { laddr := some "100.64.0.1", raddr := some ("192.168.1.9", 5)
     status := none }]

/-- The single aggregated row the C5 witness expects. -/
def ciC5 : ConnectionInfo :=
  { ip := "100.64.0.2", hostname := none, bytes := 0, port := some 22
    state := some "ESTABLISHED" }

/-! ## Theorems -/

/-- C3: with a baseline present, a call whose elapsed time
(current timestamp minus stored previous timestamp) is ≤ 0 returns exactly
(0, 0) and leaves the stored baseline unchanged. -/
theorem C3_nonpos_elapsed_frame (st : MonitorState) (pbs pbr : ℕ) (pts : ℚ)
    (bytes_sent bytes_recv : ℕ) (timestamp : ℚ)
    (hst : st = ⟨some pbs, some pbr, some pts⟩)
    (helapsed : timestamp - pts ≤ 0) :
    calculate_bandwidth st bytes_sent bytes_recv timestamp = ((0, 0), st) := by
  subst hst
  simp only [calculate_bandwidth]
  rw [if_pos helapsed]

/-- C3 witness: two readings with the same timestamp 50 leave the baseline
(100, 200, 50) untouched and report (0, 0). -/
theorem C3_nonpos_elapsed_frame_witness :
    calculate_bandwidth ⟨some 100, some 200, some 50⟩ 300 400 50 =
      ((0, 0), ⟨some 100, some 200, some 50⟩) :=
  C3_nonpos_elapsed_frame _ 100 200 50 300 400 50 rfl (by norm_num)

/-- C4: with a baseline present and strictly positive elapsed time, a
direction whose current counter is below the stored one uses the current
counter itself as delta; the delta is never negative, and both returned
rates (delta / elapsed × 8/2^20) are non-negative. -/
theorem C4_rollover_rates_nonneg (pbs pbr bytes_sent bytes_recv : ℕ)
    (pts timestamp : ℚ) (hpos : 0 < timestamp - pts) :
    (bytes_sent < pbs → deltaUsed pbs bytes_sent = bytes_sent) ∧
    (bytes_recv < pbr → deltaUsed pbr bytes_recv = bytes_recv) ∧
    0 ≤ deltaUsed pbs bytes_sent ∧ 0 ≤ deltaUsed pbr bytes_recv ∧
    (calculate_bandwidth ⟨some pbs, some pbr, some pts⟩ bytes_sent bytes_recv
        timestamp).1 =
      (((deltaUsed pbs bytes_sent : ℚ) / (timestamp - pts)) * BYTES_TO_MBPS,
       ((deltaUsed pbr bytes_recv : ℚ) / (timestamp - pts)) * BYTES_TO_MBPS) ∧
    0 ≤ ((deltaUsed pbs bytes_sent : ℚ) / (timestamp - pts)) * BYTES_TO_MBPS ∧
    0 ≤ ((deltaUsed pbr bytes_recv : ℚ) / (timestamp - pts)) * BYTES_TO_MBPS := by
  have hdelta : ∀ prev cur : ℕ, 0 ≤ deltaUsed prev cur := by
    intro prev cur
    simp only [deltaUsed]
    split
    · exact Int.ofNat_nonneg cur
    · omega
  have hrollover : ∀ prev cur : ℕ, cur < prev → deltaUsed prev cur = cur := by
    intro prev cur h
    simp only [deltaUsed]
    rw [if_pos (by omega)]
  have hmbps : (0 : ℚ) ≤ BYTES_TO_MBPS := by norm_num [BYTES_TO_MBPS]
  have hrate : ∀ prev cur : ℕ,
      0 ≤ ((deltaUsed prev cur : ℚ) / (timestamp - pts)) * BYTES_TO_MBPS := by
    intro prev cur
    apply mul_nonneg _ hmbps
    apply div_nonneg _ (le_of_lt hpos)
    exact_mod_cast hdelta prev cur
  refine ⟨hrollover pbs bytes_sent, hrollover pbr bytes_recv,
    hdelta pbs bytes_sent, hdelta pbr bytes_recv, ?_,
    hrate pbs bytes_sent, hrate pbr bytes_recv⟩
  simp only [calculate_bandwidth]
  rw [if_neg (by linarith)]

/-- C4 witness: previous counters (1000, 50), current counters (100, 80) at
elapsed time 1: the sent counter rolled over, the delta used is 100, and
both rates are non-negative. -/
theorem C4_rollover_rates_nonneg_witness :
    deltaUsed 1000 100 = 100 ∧
    (0 : ℤ) ≤ deltaUsed 1000 100 ∧
    (calculate_bandwidth ⟨some 1000, some 50, some 0⟩ 100 80 1).1 =
      (((deltaUsed 1000 100 : ℚ) / (1 - 0)) * BYTES_TO_MBPS,
       ((deltaUsed 50 80 : ℚ) / (1 - 0)) * BYTES_TO_MBPS) ∧
    0 ≤ ((deltaUsed 1000 100 : ℚ) / (1 - 0)) * BYTES_TO_MBPS := by
  have h := C4_rollover_rates_nonneg 1000 50 100 80 0 1 (by norm_num)
  exact ⟨h.1 (by norm_num), h.2.2.1, h.2.2.2.2.1, h.2.2.2.2.2.1⟩

/-- C2: after a read-path liveness sweep, every agent whose `last_seen` is
strictly older than `now - timeout` reads as offline (it is flipped if it
was not already offline), and every agent within the timeout is left with
its previous state unchanged. -/
theorem C2_liveness_sweep (db : DB) (now timeout_seconds : ℚ) (a : Agent)
    (ha : a ∈ db.agents) :
    sweepAgent now timeout_seconds a ∈
      (check_agent_timeout db now timeout_seconds).agents ∧
    (a.last_seen < now - timeout_seconds →
      (sweepAgent now timeout_seconds a).status = STATUS_OFFLINE) ∧
    (¬ a.last_seen < now - timeout_seconds →
      sweepAgent now timeout_seconds a = a) := by
  refine ⟨List.mem_map_of_mem _ ha, ?_, ?_⟩
  · intro hstale
    by_cases hoff : a.status = STATUS_OFFLINE
    · simp only [sweepAgent]
      split
      · rfl
      · exact hoff
    · simp only [sweepAgent]
      rw [if_pos ⟨hstale, hoff⟩]
  · intro hfresh
    simp only [sweepAgent]
    rw [if_neg (by tauto)]

/-- C2 witness: at `now = 1000` with the default 300 s timeout, the agent
last seen at 699 (timeout+1 seconds ago) sweeps to offline and the agent
last seen at 701 (timeout−1 seconds ago) stays online (unchanged). -/
theorem C2_liveness_sweep_witness :
    (sweepAgent 1000 300 staleAgent).status = STATUS_OFFLINE ∧
    sweepAgent 1000 300 freshAgent = freshAgent := by
  have h1 := C2_liveness_sweep dbSweep 1000 300 staleAgent (by simp [dbSweep])
  have h2 := C2_liveness_sweep dbSweep 1000 300 freshAgent (by simp [dbSweep])
  refine ⟨h1.2.1 ?_, h2.2.2 ?_⟩
  · show staleAgent.last_seen < 1000 - 300
    norm_num [staleAgent]
  · show ¬ freshAgent.last_seen < 1000 - 300
    norm_num [freshAgent]

/-- C1: an authenticated submission whose peer list has length K persists,
in one transaction (`submit_metrics` is a single state transition), exactly
one new Metric row — carrying the fresh id and `active_connections = K` —
and exactly K Connection rows, all referencing that id (provided no
pre-existing Connection row already carries the fresh id, which the
autoincrement discipline guarantees). -/
theorem C1_ingestion_atomicity (db : DB) (agent_id : String)
    (sub : MetricSubmission) (now : ℚ)
    (hfresh : ∀ c ∈ db.connections, c.metric_id ≠ db.next_metric_id) :
    (submit_metrics db agent_id sub now).metrics.length =
      db.metrics.length + 1 ∧
    (∃ m, (submit_metrics db agent_id sub now).metrics = db.metrics ++ [m] ∧
      m.id = db.next_metric_id ∧
      m.active_connections = sub.metrics.active_connections.length) ∧
    ((submit_metrics db agent_id sub now).connections.filter
        (fun c => c.metric_id = db.next_metric_id)).length =
      sub.metrics.active_connections.length := by
  refine ⟨by simp [submit_metrics], ⟨_, rfl, rfl, rfl⟩, ?_⟩
  simp only [submit_metrics, List.filter_append]
  have hold : db.connections.filter
      (fun c => c.metric_id = db.next_metric_id) = [] := by
    rw [List.filter_eq_nil_iff]
    intro c hc
    simpa using hfresh c hc
  have hnew : ∀ (l : List ConnectionInfo) (f : ConnectionInfo → Connection),
      (∀ ci, (f ci).metric_id = db.next_metric_id) →
      ((l.map f).filter (fun c => c.metric_id = db.next_metric_id)).length
        = l.length := by
    intro l f hf
    rw [List.filter_eq_self.mpr, List.length_map]
    intro c hc
    simp only [List.mem_map] at hc
    obtain ⟨ci, _, rfl⟩ := hc
    simp [hf ci]
  rw [hold]
  simpa using hnew sub.metrics.active_connections _ (fun _ => rfl)

/-- C1 witness: submitting the two-peer snapshot `subW` against the
database `dbSweep` (fresh metric id 1, no pre-existing rows) stores one new
Metric row and exactly 2 Connection rows referencing it. -/
theorem C1_ingestion_atomicity_witness :
    (submit_metrics dbSweep "a1" subW 600).metrics.length =
      dbSweep.metrics.length + 1 ∧
    ((submit_metrics dbSweep "a1" subW 600).connections.filter
        (fun c => c.metric_id = dbSweep.next_metric_id)).length = 2 := by
  have h := C1_ingestion_atomicity dbSweep "a1" subW 600
    (by intro c hc; simp [dbSweep] at hc)
  exact ⟨h.1, h.2.2⟩

/-- C8: the first registration for a tailscale IP succeeds, returning the
fresh agent id and the plaintext api key and adding exactly one Agent row;
any later registration for the same IP is rejected with 409 (the error
branch returns no database, so no record is created); and the
one-agent-per-IP invariant is preserved. -/
theorem C8_registration_conflict (db : DB) (reg : AgentRegistration)
    (new_id new_key key_hash : String) (now : ℚ)
    (hfresh : db.agents.find? (fun a => a.tailscale_ip = reg.tailscale_ip)
      = none)
    (hinv : atMostOnePerIP db) :
    ∃ db' resp,
      register_agent db reg new_id new_key key_hash now = .ok (db', resp) ∧
      resp.agent_id = new_id ∧ resp.api_key = new_key ∧
      db'.agents.length = db.agents.length + 1 ∧
      atMostOnePerIP db' ∧
      ∀ id2 key2 hash2 now2,
        register_agent db' reg id2 key2 hash2 now2 = .error 409 := by
  have hnone : ∀ a ∈ db.agents, a.tailscale_ip ≠ reg.tailscale_ip := by
    intro a ha
    have := List.find?_eq_none.mp hfresh a ha
    simpa using this
  refine ⟨_, _, by rw [register_agent, hfresh], rfl, rfl, by simp, ?_, ?_⟩
  · intro ip
    simp only [List.filter_append]
    by_cases hip : ip = reg.tailscale_ip
    · have hleft : db.agents.filter (fun a => a.tailscale_ip = ip) = [] := by
        rw [List.filter_eq_nil_iff]
        intro a ha
        simp [hip, hnone a ha]
      rw [hleft]
      simp only [List.nil_append, List.filter_cons, List.filter_nil]
      split <;> simp
    · have hright : ¬ (reg.tailscale_ip = ip) := fun h => hip h.symm
      simp only [List.filter_cons, List.filter_nil]
      rw [if_neg (by simpa using hright)]
      simpa using hinv ip
  · intro id2 key2 hash2 now2
    rw [register_agent]
    cases hfind : (db.agents ++
        [({ id := new_id, hostname := reg.hostname,
            tailscale_ip := reg.tailscale_ip, os_type := reg.os_type,
            api_key_hash := key_hash, first_seen := now, last_seen := now,
            status := STATUS_ONLINE } : Agent)]).find?
          (fun a => a.tailscale_ip = reg.tailscale_ip) with
    | some a => rfl
    | none =>
        exfalso
        have := List.find?_eq_none.mp hfind
          ({ id := new_id, hostname := reg.hostname,
             tailscale_ip := reg.tailscale_ip, os_type := reg.os_type,
             api_key_hash := key_hash, first_seen := now, last_seen := now,
             status := STATUS_ONLINE } : Agent) (by simp)
        simp at this

/-- C8 witness: on the concrete database `dbSweep` (IPs 100.64.0.1 and
100.64.0.2), registering IP 100.64.0.9 succeeds once and a second
registration of the same IP answers 409. -/
theorem C8_registration_conflict_witness :
    ∃ db' resp,
      register_agent dbSweep
          ⟨"h9", "100.64.0.9", "linux"⟩ "id9" "key9" "hash9" 100 =
        .ok (db', resp) ∧
      resp.agent_id = "id9" ∧ resp.api_key = "key9" ∧
      register_agent db' ⟨"h9", "100.64.0.9", "linux"⟩ "idX" "keyX" "hashX" 200 =
        .error 409 := by
  obtain ⟨db', resp, hok, hid, hkey, _, _, h409⟩ :=
    C8_registration_conflict dbSweep ⟨"h9", "100.64.0.9", "linux"⟩
      "id9" "key9" "hash9" 100
      (by simp [dbSweep, staleAgent, freshAgent, List.find?])
      (by
        intro ip
        by_cases hA : ("100.64.0.1" : String) = ip <;>
          by_cases hB : ("100.64.0.2" : String) = ip
        · exact absurd (hA.trans hB.symm) (by decide)
        all_goals simp [dbSweep, staleAgent, freshAgent, hA, hB])
  exact ⟨db', resp, hok, hid, hkey, h409 "idX" "keyX" "hashX" 200⟩

/-- Unfolding: a 401 response aborts at once, with no sleep. -/
theorem submitLoop_auth_fatal (n : ℕ) (env : ℕ → AttemptOutcome) (a : ℕ)
    (ha : a < n) (h : env a = .httpError 401) :
    submitLoop n env a = (false, 1, []) := by
  conv_lhs => rw [submitLoop.eq_def]
  rw [dif_pos ha]
  split
  · rename_i heq; rw [h] at heq; exact absurd heq (by simp)
  · rename_i s heq
    rw [h] at heq
    have hs : s = 401 := by
      injection heq with h'
      exact h'.symm
    rw [if_pos hs]
  · rename_i heq; rw [h] at heq; exact absurd heq (by simp)
  · rename_i heq; rw [h] at heq; exact absurd heq (by simp)
  · rename_i heq; rw [h] at heq; exact absurd heq (by simp)

/-- Unfolding: a retryable failure on a non-final attempt sleeps
`backoffFor a` and continues with the next attempt. -/
theorem submitLoop_retry_step (n : ℕ) (env : ℕ → AttemptOutcome) (a : ℕ)
    (ha : a < n - 1) (h : retryable (env a)) :
    submitLoop n env a =
      ((submitLoop n env (a + 1)).1, (submitLoop n env (a + 1)).2.1 + 1,
        backoffFor a :: (submitLoop n env (a + 1)).2.2) := by
  have han : a < n := by omega
  conv_lhs => rw [submitLoop.eq_def]
  rw [dif_pos han]
  split
  · rename_i heq; rw [heq] at h; exact absurd h (by simp [retryable])
  · rename_i s heq
    rw [heq] at h
    have hs : s ≠ 401 := by simpa [retryable] using h
    rw [if_neg hs, if_pos ha]
  · rw [if_pos ha]
  · rw [if_pos ha]
  · rw [if_pos ha]

/-- The fatal-401 trace, started from any attempt index `a ≤ i`. -/
theorem submitLoop_fatal_from (env : ℕ → AttemptOutcome) (n i : ℕ)
    (hin : i < n) (h401 : env i = .httpError 401) :
    ∀ k a, a ≤ i → i - a = k →
      (∀ j, a ≤ j → j < i → retryable (env j)) →
      submitLoop n env a =
        (false, i + 1 - a, (List.range' a (i - a)).map backoffFor) := by
  intro k
  induction k with
  | zero =>
      intro a hai hk _
      have hia : i = a := by omega
      subst hia
      rw [submitLoop_auth_fatal n env i hin h401]
      simp
  | succ k ih =>
      intro a hai hk hr
      have haiI : a < i := by omega
      have hstep := submitLoop_retry_step n env a (by omega)
        (hr a le_rfl haiI)
      rw [hstep, ih (a + 1) (by omega) (by omega)
        (fun j hj1 hj2 => hr j (by omega) hj2)]
      have hrange : List.range' a (i - a) = a :: List.range' (a + 1) (i - (a + 1)) := by
        have : i - a = (i - (a + 1)) + 1 := by omega
        rw [this, List.range'_succ]
      rw [hrange]
      simp
      omega

/-- C6: a 401 on attempt `i` (all earlier attempts having failed
retryably) makes the client return `false` immediately: exactly `i + 1`
attempts are made and only the `i` backoff sleeps of the earlier retries
are performed, none after the 401.  Moreover every retryable failure
(connection error, timeout, non-401 HTTP error) on a non-final attempt
sleeps the backoff-table entry indexed by the attempt number (clamped to
the last entry, inside `backoffFor`) and retries.  The loop is a total
function into `Bool × ℕ × List ℕ`: it always returns a boolean and never
raises. -/
theorem C6_auth_fatal_retry_backoff (env : ℕ → AttemptOutcome) (n i : ℕ)
    (hin : i < n) (h401 : env i = .httpError 401)
    (hretry : ∀ j, j < i → retryable (env j)) :
    submit_metrics_client env n =
      (false, i + 1, (List.range i).map backoffFor) ∧
    (∀ m, m < n - 1 → retryable (env m) →
      submitLoop n env m =
        ((submitLoop n env (m + 1)).1, (submitLoop n env (m + 1)).2.1 + 1,
          backoffFor m :: (submitLoop n env (m + 1)).2.2)) := by
  constructor
  · have := submitLoop_fatal_from env n i hin h401 i 0 (by omega) (by omega)
      (fun j _ hj2 => hretry j hj2)
    rw [submit_metrics_client, this]
    rw [List.range_eq_range']
    simp
  · exact fun m hm hr => submitLoop_retry_step n env m hm hr

/-- C6 witness: with 3 configured attempts against `envW`, the client
sleeps once (1 s, the backoff-table entry for attempt 0), makes 2 attempts
in total, and returns failure. -/
theorem C6_auth_fatal_retry_backoff_witness :
    submit_metrics_client envW 3 = (false, 2, [1]) := by
  have h := (C6_auth_fatal_retry_backoff envW 3 1 (by omega) (by rfl)
    (by
      intro j hj
      have : j = 0 := by omega
      subst this
      simp [envW, retryable])).1
  rw [h]
  rfl

/-- C7: the dashboard reports `offline = total − online`;
`total_traffic_gb` equals the sum of `bytes_sent + bytes_received` over
each agent's latest (max-id) Snapshot divided by 2^30 and rounded to 2
decimals (the code's `if total_bytes else 0` collapses into the formula);
`avg_bandwidth_mbps` divides the summed rates by `max(1, number of agents
with a Snapshot)`, a divisor that is always positive; and on the concrete
two-agent store with latest Snapshots (10·2^30, 0) and (0, 5·2^30) the
dashboard shows exactly 15 total GB. -/
theorem C7_dashboard_aggregation (db : DB) (now : ℚ) :
    (get_dashboard db now).offline_hosts =
      (get_dashboard db now).total_hosts - (get_dashboard db now).online_hosts ∧
    (get_dashboard db now).total_traffic_gb =
      round2 (((((latest_metrics
          (check_agent_timeout db now AGENT_TIMEOUT_SECONDS)).map
            (fun m => m.bytes_sent + m.bytes_received)).sum : ℕ) : ℚ) / 2 ^ 30) ∧
    (get_dashboard db now).avg_bandwidth_mbps =
      round2 (((latest_metrics
          (check_agent_timeout db now AGENT_TIMEOUT_SECONDS)).map
            (fun m => m.upload_mbps + m.download_mbps)).sum /
        ((max (latest_metrics
          (check_agent_timeout db now AGENT_TIMEOUT_SECONDS)).length 1 : ℕ) : ℚ)) ∧
    0 < max (latest_metrics
        (check_agent_timeout db now AGENT_TIMEOUT_SECONDS)).length 1 ∧
    (get_dashboard dbC7 1000).total_traffic_gb = 15 := by
  refine ⟨rfl, ?_, rfl, ?_, ?_⟩
  · simp only [get_dashboard, dashboardOf]
    by_cases h : ((latest_metrics
        (check_agent_timeout db now AGENT_TIMEOUT_SECONDS)).map
          (fun m => m.bytes_sent + m.bytes_received)).sum = 0
    · rw [h]
      norm_num
    · rw [if_pos h]
      norm_num [BYTES_TO_GB]
  · exact Nat.lt_of_lt_of_le Nat.zero_lt_one (le_max_right _ _)
  · simp only [get_dashboard, dashboardOf]
    rw [show latest_metrics (check_agent_timeout dbC7 1000 AGENT_TIMEOUT_SECONDS)
        = [mC7a, mC7b] from rfl]
    norm_num [mC7a, mC7b, BYTES_TO_GB, round2, roundHalfEven]

/-- The sweep never touches `last_seen`. -/
theorem sweepAgent_last_seen (now T : ℚ) (a : Agent) :
    (sweepAgent now T a).last_seen = a.last_seen := by
  simp only [sweepAgent]
  split <;> rfl

/-- After the sweep, a stale agent reads offline. -/
theorem sweepAgent_stale_status (now T : ℚ) (a : Agent)
    (h : a.last_seen < now - T) :
    (sweepAgent now T a).status = STATUS_OFFLINE := by
  by_cases hoff : a.status = STATUS_OFFLINE
  · simp only [sweepAgent]
    split
    · rfl
    · exact hoff
  · simp only [sweepAgent]
    rw [if_pos ⟨h, hoff⟩]

/-- C9 counterexample: the per-host traffic query does not sweep.  In
`dbSweep` at `now = 1000`, agent `h1` was last seen at 699, strictly older
than the 300 s timeout, yet `GET /traffic/by-host/h1` still reports status
"online". -/
theorem C9_counterexample_host_traffic_no_sweep :
    staleAgent.last_seen < 1000 - AGENT_TIMEOUT_SECONDS ∧
    ∃ ht, get_host_traffic dbSweep "h1" = .ok ht ∧
      ht.status = STATUS_ONLINE := by
  refine ⟨by norm_num [staleAgent, AGENT_TIMEOUT_SECONDS], ?_⟩
  refine ⟨hostTrafficOf dbSweep staleAgent, ?_, rfl⟩
  rw [get_host_traffic,
    show dbSweep.agents.find? (fun a => a.hostname = "h1")
      = some staleAgent from rfl]

/-- C9 (amended): the agents-list and traffic-summary read paths sweep
before reading — after either, no agent whose `last_seen` is older than the
timeout is reported "online" — but the per-host traffic query performs no
sweep and returns the stored status unchanged. -/
theorem C9_amended_sweep_coverage (db : DB) (now : ℚ) :
    (∀ info ∈ list_agents db now,
      info.last_seen < now - AGENT_TIMEOUT_SECONDS →
        info.status = STATUS_OFFLINE) ∧
    (∀ ht ∈ (get_traffic_summary db now).hosts,
      ht.last_seen < now - AGENT_TIMEOUT_SECONDS →
        ht.status = STATUS_OFFLINE) ∧
    (∀ hostname a,
      db.agents.find? (fun x => x.hostname = hostname) = some a →
        get_host_traffic db hostname = .ok (hostTrafficOf db a)) := by
  refine ⟨?_, ?_, ?_⟩
  · intro info hinfo hstale
    simp only [list_agents, check_agent_timeout, List.map_map,
      List.mem_map] at hinfo
    obtain ⟨a, _, rfl⟩ := hinfo
    simp only [Function.comp_apply] at hstale ⊢
    rw [sweepAgent_last_seen] at hstale
    exact sweepAgent_stale_status now AGENT_TIMEOUT_SECONDS a hstale
  · intro ht hht hstale
    simp only [get_traffic_summary, check_agent_timeout, List.map_map,
      List.mem_map] at hht
    obtain ⟨a, _, rfl⟩ := hht
    simp only [Function.comp_apply, hostTrafficOf] at hstale ⊢
    rw [sweepAgent_last_seen] at hstale
    exact sweepAgent_stale_status now AGENT_TIMEOUT_SECONDS a hstale
  · intro hostname a hfind
    rw [get_host_traffic, hfind]

/-- C9 amended witness: on `dbSweep` at `now = 1000`, the swept agents
list reports the stale agent offline, while the (un-swept) per-host query
returns the stored record as-is. -/
theorem C9_amended_sweep_coverage_witness :
    infoStale.status = STATUS_OFFLINE ∧
    get_host_traffic dbSweep "h1" = .ok (hostTrafficOf dbSweep staleAgent) := by
  have h := C9_amended_sweep_coverage dbSweep 1000
  constructor
  · apply h.1 infoStale
    · show infoStale ∈ list_agents dbSweep 1000
      simp only [list_agents, check_agent_timeout, List.map_map,
        List.mem_map]
      exact ⟨staleAgent, by simp [dbSweep], rfl⟩
    · show infoStale.last_seen < _
      show (sweepAgent 1000 AGENT_TIMEOUT_SECONDS staleAgent).last_seen < _
      rw [sweepAgent_last_seen]
      norm_num [staleAgent, AGENT_TIMEOUT_SECONDS]
  · exact h.2.2 "h1" staleAgent rfl

/-- `addConn` preserves the all-zero-bytes invariant of the aggregation
map. -/
theorem addConn_bytes_zero (m : List (String × PeerAgg)) (rip : String)
    (rport : ℕ) (status : Option String)
    (hm : ∀ p ∈ m, p.2.bytes = 0) :
    ∀ p ∈ addConn m rip rport status, p.2.bytes = 0 := by
  induction m with
  | nil =>
      intro p hp
      simp only [addConn, List.mem_singleton] at hp
      subst hp
      rfl
  | cons hd tl ih =>
      intro p hp
      simp only [addConn] at hp
      split at hp
      · rcases List.mem_cons.mp hp with h | h
        · subst h
          exact hm hd (List.mem_cons_self hd tl)
        · exact hm p (List.mem_cons_of_mem hd h)
      · rcases List.mem_cons.mp hp with h | h
        · subst h
          exact hm hd (List.mem_cons_self hd tl)
        · exact ih (fun q hq => hm q (List.mem_cons_of_mem hd hq)) p h

/-- Every entry of the aggregation map carries a zero byte counter. -/
theorem buildMap_bytes_zero (tailscale_ip : String) (raw : List RawConn) :
    ∀ p ∈ buildMap tailscale_ip raw, p.2.bytes = 0 := by
  suffices h : ∀ (m : List (String × PeerAgg)), (∀ p ∈ m, p.2.bytes = 0) →
      ∀ p ∈ raw.foldl (fun m c =>
        match connFilter tailscale_ip c with
        | none => m
        | some (rip, rport, status) => addConn m rip rport status) m,
        p.2.bytes = 0 by
    exact h [] (by simp)
  induction raw with
  | nil => intro m hm; simpa using hm
  | cons c cs ih =>
      intro m hm
      simp only [List.foldl_cons]
      cases hc : connFilter tailscale_ip c with
      | none => exact ih m hm
      | some t => exact ih _ (addConn_bytes_zero m t.1 t.2.1 t.2.2 hm)

/-- `groupSum.addGroup` preserves the all-zero invariant when the added
value is zero. -/
theorem addGroup_zero (l : List ((String × String) × ℕ)) (k : String × String)
    (b : ℕ) (hl : ∀ x ∈ l, x.2 = 0) (hb : b = 0) :
    ∀ x ∈ groupSum.addGroup l k b, x.2 = 0 := by
  induction l with
  | nil =>
      intro x hx
      simp only [groupSum.addGroup, List.mem_singleton] at hx
      subst hx
      exact hb
  | cons hd tl ih =>
      intro x hx
      simp only [groupSum.addGroup] at hx
      split at hx
      · rcases List.mem_cons.mp hx with h | h
        · subst h
          have := hl hd (List.mem_cons_self hd tl)
          simp [this, hb]
        · exact hl x (List.mem_cons_of_mem hd h)
      · rcases List.mem_cons.mp hx with h | h
        · subst h
          exact hl hd (List.mem_cons_self hd tl)
        · exact ih (fun q hq => hl q (List.mem_cons_of_mem hd hq)) x h

/-- Group-summing all-zero rows yields all-zero totals. -/
theorem groupSum_zero (l : List ((String × String) × ℕ))
    (hl : ∀ x ∈ l, x.2 = 0) : ∀ x ∈ groupSum l, x.2 = 0 := by
  induction l with
  | nil => simp [groupSum]
  | cons hd tl ih =>
      simp only [groupSum]
      exact addGroup_zero (groupSum tl)
        hd.1 hd.2 (ih (fun q hq => hl q (List.mem_cons_of_mem hd hq)))
        (hl hd (List.mem_cons_self hd tl))

/-- Membership through the descending insertion. -/
theorem mem_insertDesc (x y : (String × String) × ℕ)
    (l : List ((String × String) × ℕ)) :
    x ∈ sortDescBytes.insertDesc y l → x = y ∨ x ∈ l := by
  induction l with
  | nil =>
      intro h
      simp only [sortDescBytes.insertDesc, List.mem_singleton] at h
      exact Or.inl h
  | cons hd tl ih =>
      intro h
      simp only [sortDescBytes.insertDesc] at h
      split at h
      · rcases List.mem_cons.mp h with h' | h'
        · exact Or.inl h'
        · exact Or.inr h'
      · rcases List.mem_cons.mp h with h' | h'
        · exact Or.inr (h' ▸ List.mem_cons_self hd tl)
        · rcases ih h' with h'' | h''
          · exact Or.inl h''
          · exact Or.inr (List.mem_cons_of_mem hd h'')

/-- Membership through the descending sort. -/
theorem mem_sortDescBytes (x : (String × String) × ℕ)
    (l : List ((String × String) × ℕ)) :
    x ∈ sortDescBytes l → x ∈ l := by
  induction l with
  | nil => intro h; simp [sortDescBytes] at h
  | cons hd tl ih =>
      intro h
      simp only [sortDescBytes] at h
      rcases mem_insertDesc x hd (sortDescBytes tl) h with h' | h'
      · exact h' ▸ List.mem_cons_self hd tl
      · exact List.mem_cons_of_mem hd (ih h')

/-- Rows the join produces carry the byte counts of stored connections. -/
theorem summaryRows_zero (db : DB) (now : ℚ)
    (hdb : ∀ c ∈ db.connections, c.bytes_transferred = 0) :
    ∀ x ∈ summaryRows db now, x.2 = 0 := by
  intro x hx
  simp only [summaryRows, List.mem_filterMap] at hx
  obtain ⟨c, hc, hfc⟩ := hx
  rcases hh : c.remote_hostname with _ | rh
  · simp [hh] at hfc
  · simp only [hh] at hfc
    rcases hm : db.metrics.find? (fun m => m.id = c.metric_id) with _ | m
    · simp [hm] at hfc
    · simp only [hm] at hfc
      by_cases ht : now - 3600 ≤ m.timestamp
      · rw [if_pos ht] at hfc
        rcases ha : db.agents.find? (fun a => a.id = m.agent_id) with _ | a
        · simp [ha] at hfc
        · simp only [ha, Option.some_inj] at hfc
          rw [← hfc]
          exact hdb c hc
      · rw [if_neg ht] at hfc; simp at hfc

/-- C10 (implicit): every `ConnectionInfo` the agent's connection
aggregator emits has `bytes = 0` (the per-peer counter is initialised to 0
and never incremented); consequently, over stored data whose connection
rows all carry zero bytes, every top-talker pair of the traffic summary
reports `traffic_gb = 0`. -/
theorem C10_zero_connection_bytes :
    (∀ (tailscale_ip : String) (resolve : String → Option String)
        (raw : List RawConn),
      ∀ ci ∈ get_active_connections tailscale_ip resolve raw, ci.bytes = 0) ∧
    (∀ (db : DB) (now : ℚ),
      (∀ c ∈ db.connections, c.bytes_transferred = 0) →
      ∀ p ∈ topConnections db now, p.traffic_gb = 0) := by
  constructor
  · intro tip resolve raw ci hci
    simp only [get_active_connections, List.mem_map] at hci
    obtain ⟨p, hp, rfl⟩ := hci
    exact buildMap_bytes_zero tip raw p hp
  · intro db now hdb p hp
    simp only [topConnections, List.mem_map] at hp
    obtain ⟨kb, hkb, rfl⟩ := hp
    have hz : kb.2 = 0 := by
      have h1 := List.mem_of_mem_take hkb
      have h2 := mem_sortDescBytes kb _ h1
      exact groupSum_zero _ (summaryRows_zero db now hdb) kb h2
    simp [hz]

/-- C10 witness: the aggregator's output row for `rawW` carries 0 bytes,
and the top-talker pair computed from `dbC10` reports 0 traffic. -/
theorem C10_zero_connection_bytes_witness :
    ciW.bytes = 0 ∧
    (⟨"hA", "peer", 0⟩ : ConnectionPair).traffic_gb = 0 := by
  have h := C10_zero_connection_bytes
  constructor
  · exact h.1 "100.64.0.1" (fun _ => none) rawW ciW (by decide)
  · apply h.2 dbC10 1000 (by simp [dbC10, cW])
    have hrows : summaryRows dbC10 1000 = [(("hA", "peer"), 0)] := by
      show List.filterMap _ [cW] = _
      rw [List.filterMap_cons]
      norm_num [dbC10, cW, mW, agC7A, List.find?]
    show _ ∈ topConnections dbC10 1000
    rw [topConnections, hrows]
    simp [groupSum, groupSum.addGroup, sortDescBytes, sortDescBytes.insertDesc]

/-! Lemmas for the connection aggregator (C5). -/

/-- Membership in a Python-set insertion. -/
theorem mem_setAdd {α : Type} [DecidableEq α] (s : List α) (x y : α) :
    y ∈ setAdd s x ↔ y ∈ s ∨ y = x := by
  simp only [setAdd]
  split
  · rename_i hx
    constructor
    · exact fun h => Or.inl h
    · rintro (h | rfl)
      · exact h
      · exact hx
  · simp

/-- Membership in a status-set insertion. -/
theorem mem_addStatus (s : List String) (status : Option String) (y : String) :
    y ∈ addStatus s status ↔
      y ∈ s ∨ (status = some y ∧ y ≠ "") := by
  cases status with
  | none => simp [addStatus]
  | some st =>
      simp only [addStatus]
      split
      · rename_i hst
        subst hst
        constructor
        · exact fun h => Or.inl h
        · rintro (h | ⟨h1, h2⟩)
          · exact h
          · exact absurd (Option.some_inj.mp h1).symm h2
      · rename_i hst
        rw [mem_setAdd]
        constructor
        · rintro (h | rfl)
          · exact Or.inl h
          · exact Or.inr ⟨rfl, hst⟩
        · rintro (h | ⟨h1, _⟩)
          · exact Or.inl h
          · exact Or.inr (Option.some_inj.mp h1).symm

/-- The key list after an `addConn`. -/
theorem keys_addConn (m : List (String × PeerAgg)) (rip : String) (rport : ℕ)
    (status : Option String) :
    (addConn m rip rport status).map Prod.fst =
      if rip ∈ m.map Prod.fst then m.map Prod.fst
      else m.map Prod.fst ++ [rip] := by
  induction m with
  | nil => simp [addConn]
  | cons hd tl ih =>
      simp only [addConn]
      by_cases hk : hd.1 = rip
      · rw [if_pos hk]
        simp [hk]
      · rw [if_neg hk]
        simp only [List.map_cons, ih]
        by_cases hmem : rip ∈ tl.map Prod.fst
        · rw [if_pos hmem, if_pos (by simp [hmem])]
        · rw [if_neg hmem,
            if_neg (by simp [hmem, Ne.symm hk]), List.cons_append]

/-- `addConn` keeps the keys duplicate-free. -/
theorem nodup_keys_addConn (m : List (String × PeerAgg)) (rip : String)
    (rport : ℕ) (status : Option String)
    (h : (m.map Prod.fst).Nodup) :
    ((addConn m rip rport status).map Prod.fst).Nodup := by
  rw [keys_addConn]
  split
  · exact h
  · rename_i hmem
    simpa using List.Nodup.append h (by simp) (by simpa using hmem)

/-- Looking up the inserted key after `addConn`. -/
theorem lookupAgg_addConn_self (m : List (String × PeerAgg)) (rip : String)
    (rport : ℕ) (status : Option String) :
    lookupAgg (addConn m rip rport status) rip =
      some (match lookupAgg m rip with
        | none => { ports := [rport], states := addStatus [] status, bytes := 0 }
        | some agg =>
            { agg with ports := setAdd agg.ports rport
                       states := addStatus agg.states status }) := by
  induction m with
  | nil => simp [addConn, lookupAgg]
  | cons hd tl ih =>
      by_cases hk : hd.1 = rip
      · simp only [addConn, if_pos hk, lookupAgg, List.find?_cons, hk]
        simp
      · simp only [addConn, if_neg hk, lookupAgg, List.find?_cons]
        rw [show (decide (hd.1 = rip)) = false by simp [hk]]
        exact ih

/-- Looking up any other key after `addConn`. -/
theorem lookupAgg_addConn_other (m : List (String × PeerAgg)) (rip : String)
    (rport : ℕ) (status : Option String) (k : String) (hk : k ≠ rip) :
    lookupAgg (addConn m rip rport status) k = lookupAgg m k := by
  induction m with
  | nil =>
      simp only [addConn, lookupAgg, List.find?_cons, List.find?_nil]
      rw [show (decide (rip = k)) = false by simp [Ne.symm hk]]
  | cons hd tl ih =>
      by_cases hhd : hd.1 = rip
      · simp only [addConn, if_pos hhd, lookupAgg, List.find?_cons]
        rw [show (decide (hd.1 = k)) = false by
          rw [hhd]; simp [Ne.symm hk]]
      · simp only [addConn, if_neg hhd, lookupAgg, List.find?_cons]
        by_cases hdk : hd.1 = k
        · rw [show (decide (hd.1 = k)) = true by simp [hdk]]
        · rw [show (decide (hd.1 = k)) = false by simp [hdk]]
          exact ih

/-- Key presence after folding the aggregation step. -/
theorem foldl_lookup_isSome (F : List (String × ℕ × Option String)) :
    ∀ (m : List (String × PeerAgg)) (k : String),
      (lookupAgg (F.foldl stepConn m) k).isSome ↔
        ((lookupAgg m k).isSome ∨ k ∈ F.map (fun t => t.1)) := by
  induction F with
  | nil =>
      intro m k
      simp
  | cons t rest ih =>
      intro m k
      simp only [List.foldl_cons, List.map_cons, List.mem_cons]
      rw [ih]
      by_cases hk : k = t.1
      · subst hk
        simp [stepConn, lookupAgg_addConn_self]
      · rw [show stepConn m t = addConn m t.1 t.2.1 t.2.2 from rfl,
          lookupAgg_addConn_other m t.1 t.2.1 t.2.2 k hk]
        tauto

/-- Port membership after folding the aggregation step. -/
theorem foldl_mem_ports (F : List (String × ℕ × Option String)) :
    ∀ (m : List (String × PeerAgg)) (k : String) (p : ℕ),
      (∃ agg, lookupAgg (F.foldl stepConn m) k = some agg ∧ p ∈ agg.ports) ↔
        ((∃ agg, lookupAgg m k = some agg ∧ p ∈ agg.ports) ∨
          p ∈ portsOf F k) := by
  induction F with
  | nil =>
      intro m k p
      simp [portsOf]
  | cons t rest ih =>
      intro m k p
      simp only [List.foldl_cons]
      rw [ih]
      by_cases hk : k = t.1
      · subst hk
        have hports : portsOf (t :: rest) t.1 = t.2.1 :: portsOf rest t.1 := by
          simp [portsOf]
        rw [hports,
          show stepConn m t = addConn m t.1 t.2.1 t.2.2 from rfl,
          lookupAgg_addConn_self m t.1 t.2.1 t.2.2]
        cases hm : lookupAgg m t.1 with
        | none =>
            simp only [hm, List.mem_cons]
            constructor
            · rintro (⟨agg, heq, hmem⟩ | hmem)
              · rw [Option.some_inj] at heq
                subst heq
                simp only [List.mem_singleton] at hmem
                exact Or.inr (Or.inl hmem)
              · exact Or.inr (Or.inr hmem)
            · rintro (⟨agg, heq, _⟩ | hp | hmem)
              · exact absurd heq (by simp)
              · exact Or.inl ⟨_, rfl, by simpa using hp⟩
              · exact Or.inr hmem
        | some agg0 =>
            simp only [hm, List.mem_cons]
            constructor
            · rintro (⟨agg, heq, hmem⟩ | hmem)
              · rw [Option.some_inj] at heq
                subst heq
                rcases (mem_setAdd agg0.ports t.2.1 p).mp hmem with h | h
                · exact Or.inl ⟨agg0, rfl, h⟩
                · exact Or.inr (Or.inl h)
              · exact Or.inr (Or.inr hmem)
            · rintro (⟨agg, heq, hmem⟩ | hp | hmem)
              · rw [Option.some_inj] at heq
                subst heq
                exact Or.inl ⟨_, rfl, (mem_setAdd agg0.ports t.2.1 p).mpr
                  (Or.inl hmem)⟩
              · exact Or.inl ⟨_, rfl, (mem_setAdd agg0.ports t.2.1 p).mpr
                  (Or.inr hp)⟩
              · exact Or.inr hmem
      · rw [show stepConn m t = addConn m t.1 t.2.1 t.2.2 from rfl,
          lookupAgg_addConn_other m t.1 t.2.1 t.2.2 k hk,
          show portsOf (t :: rest) k = portsOf rest k by
            simp [portsOf, Ne.symm hk]]

/-- Membership in a status contribution. -/
theorem mem_statusContrib (status : Option String) (s : String) :
    s ∈ statusContrib status ↔ status = some s ∧ s ≠ "" := by
  cases status with
  | none => simp [statusContrib]
  | some st =>
      simp only [statusContrib]
      by_cases hemp : st = ""
      · subst hemp
        rw [if_pos rfl]
        constructor
        · intro h
          exact absurd h (List.not_mem_nil s)
        · rintro ⟨h1, h2⟩
          exact absurd (Option.some_inj.mp h1).symm h2
      · rw [if_neg hemp]
        constructor
        · intro h
          rw [List.mem_singleton] at h
          subst h
          exact ⟨rfl, hemp⟩
        · rintro ⟨h1, h2⟩
          rw [List.mem_singleton]
          exact (Option.some_inj.mp h1).symm

/-- `addStatus` adds exactly the status contribution. -/
theorem mem_addStatus_contrib (l : List String) (status : Option String)
    (s : String) :
    s ∈ addStatus l status ↔ s ∈ l ∨ s ∈ statusContrib status := by
  rw [mem_addStatus, mem_statusContrib]

/-- What a cons contributes to `statesOf` at its own key. -/
theorem statesOf_cons_self (t : String × ℕ × Option String)
    (rest : List (String × ℕ × Option String)) :
    statesOf (t :: rest) t.1 = statusContrib t.2.2 ++ statesOf rest t.1 := by
  cases hst : t.2.2 with
  | none => simp [statesOf, statusContrib, hst]
  | some st =>
      by_cases hemp : st = ""
      · simp [statesOf, statusContrib, hst, hemp]
      · simp [statesOf, statusContrib, hst, hemp]

/-- State membership after folding the aggregation step. -/
theorem foldl_mem_states (F : List (String × ℕ × Option String)) :
    ∀ (m : List (String × PeerAgg)) (k : String) (s : String),
      (∃ agg, lookupAgg (F.foldl stepConn m) k = some agg ∧ s ∈ agg.states) ↔
        ((∃ agg, lookupAgg m k = some agg ∧ s ∈ agg.states) ∨
          s ∈ statesOf F k) := by
  induction F with
  | nil =>
      intro m k s
      simp [statesOf]
  | cons t rest ih =>
      intro m k s
      simp only [List.foldl_cons]
      rw [ih]
      by_cases hk : k = t.1
      · subst hk
        rw [statesOf_cons_self t rest,
          show stepConn m t = addConn m t.1 t.2.1 t.2.2 from rfl,
          lookupAgg_addConn_self m t.1 t.2.1 t.2.2]
        cases hm : lookupAgg m t.1 with
        | none =>
            simp only [hm]
            constructor
            · rintro (⟨agg, heq, hmem⟩ | hmem)
              · rw [Option.some_inj] at heq
                subst heq
                rcases (mem_addStatus_contrib [] t.2.2 s).mp hmem with h | h
                · exact absurd h (List.not_mem_nil s)
                · exact Or.inr (List.mem_append_left _ h)
              · exact Or.inr (List.mem_append_right _ hmem)
            · rintro (⟨agg, heq, hmem⟩ | hmem)
              · exact absurd heq (by simp)
              · rcases List.mem_append.mp hmem with h | h
                · exact Or.inl ⟨_, rfl,
                    (mem_addStatus_contrib [] t.2.2 s).mpr (Or.inr h)⟩
                · exact Or.inr h
        | some agg0 =>
            simp only [hm]
            constructor
            · rintro (⟨agg, heq, hmem⟩ | hmem)
              · rw [Option.some_inj] at heq
                subst heq
                rcases (mem_addStatus_contrib agg0.states t.2.2 s).mp hmem
                  with h | h
                · exact Or.inl ⟨agg0, rfl, h⟩
                · exact Or.inr (List.mem_append_left _ h)
              · exact Or.inr (List.mem_append_right _ hmem)
            · rintro (⟨agg, heq, hmem⟩ | hmem)
              · rw [Option.some_inj] at heq
                subst heq
                exact Or.inl ⟨_, rfl,
                  (mem_addStatus_contrib agg0.states t.2.2 s).mpr
                    (Or.inl hmem)⟩
              · rcases List.mem_append.mp hmem with h | h
                · exact Or.inl ⟨_, rfl,
                    (mem_addStatus_contrib agg0.states t.2.2 s).mpr
                      (Or.inr h)⟩
                · exact Or.inr h
      · rw [show stepConn m t = addConn m t.1 t.2.1 t.2.2 from rfl,
          lookupAgg_addConn_other m t.1 t.2.1 t.2.2 k hk,
          show statesOf (t :: rest) k = statesOf rest k by
            simp [statesOf, Ne.symm hk]]

/-- The aggregation fold keeps keys duplicate-free. -/
theorem nodup_keys_foldl (F : List (String × ℕ × Option String)) :
    ∀ m : List (String × PeerAgg), ((m.map Prod.fst).Nodup) →
      (((F.foldl stepConn m).map Prod.fst).Nodup) := by
  induction F with
  | nil => intro m hm; simpa using hm
  | cons t rest ih =>
      intro m hm
      simp only [List.foldl_cons]
      exact ih _ (nodup_keys_addConn m t.1 t.2.1 t.2.2 hm)

/-- `buildMap` is the aggregation fold over the filtered triples. -/
theorem buildMap_eq_foldl (tailscale_ip : String) (raw : List RawConn) :
    buildMap tailscale_ip raw =
      (filteredConns tailscale_ip raw).foldl stepConn [] := by
  suffices h : ∀ m : List (String × PeerAgg),
      raw.foldl (fun m c =>
        match connFilter tailscale_ip c with
        | none => m
        | some (rip, rport, status) => addConn m rip rport status) m =
      (filteredConns tailscale_ip raw).foldl stepConn m from h []
  induction raw with
  | nil => intro m; rfl
  | cons c cs ih =>
      intro m
      simp only [List.foldl_cons, filteredConns, List.filterMap_cons]
      cases hc : connFilter tailscale_ip c with
      | none => simpa [hc, filteredConns] using ih m
      | some t =>
          obtain ⟨rip, rport, status⟩ := t
          simpa [hc, filteredConns, stepConn] using ih (addConn m rip rport status)

/-- Filtering an association list with duplicate-free keys at a present
key yields exactly the looked-up pair. -/
theorem filter_key_of_nodup (m : List (String × PeerAgg)) (k : String)
    (agg : PeerAgg) (hnd : (m.map Prod.fst).Nodup)
    (h : lookupAgg m k = some agg) :
    m.filter (fun p => p.1 = k) = [(k, agg)] := by
  induction m with
  | nil => simp [lookupAgg] at h
  | cons hd tl ih =>
      have hnd' : (hd.1 :: tl.map Prod.fst).Nodup := by simpa using hnd
      by_cases hk : hd.1 = k
      · have hhd : hd = (k, agg) := by
          have hself : lookupAgg (hd :: tl) k = some hd.2 := by
            simp [lookupAgg, List.find?_cons, hk]
          rw [hself] at h
          have h2 := Option.some_inj.mp h
          calc hd = (hd.1, hd.2) := rfl
            _ = (k, agg) := by rw [hk, h2]
        have htl : tl.filter (fun p => p.1 = k) = [] := by
          rw [List.filter_eq_nil_iff]
          intro p hp hpk
          have hkeys : hd.1 ∉ tl.map Prod.fst := (List.nodup_cons.mp hnd').1
          exact hkeys (by
            rw [hk]
            simp only [List.mem_map]
            exact ⟨p, hp, by simpa using hpk⟩)
        rw [List.filter_cons, if_pos (by simpa using hk), htl, hhd]
      · have hlook : lookupAgg tl k = some agg := by
          simpa [lookupAgg, List.find?_cons, hk] using h
        rw [List.filter_cons, if_neg (by simpa using hk)]
        exact ih (List.Nodup.of_cons hnd') hlook

/-- Lists of naturals with the same elements have the same minimum. -/
theorem min?_eq_of_mem_iff {l l' : List ℕ}
    (h : ∀ x, x ∈ l ↔ x ∈ l') : l.min? = l'.min? := by
  cases hl : l.min? with
  | none =>
      rw [List.min?_eq_none_iff] at hl
      subst hl
      symm
      rw [List.min?_eq_none_iff, List.eq_nil_iff_forall_not_mem]
      intro x hx
      exact (List.not_mem_nil x) ((h x).mpr hx)
  | some a =>
      rw [List.min?_eq_some_iff'] at hl
      symm
      rw [List.min?_eq_some_iff']
      exact ⟨(h a).mp hl.1, fun b hb => hl.2 b ((h b).mpr hb)⟩

/-- C5: the connection aggregator emits at most one row per distinct
remote IP (the emitted IPs are duplicate-free); and for every remote IP
occurring among the filtered raw entries (local endpoint = monitored IP,
remote endpoint in the Tailscale prefix) there is exactly one output row,
whose port is the minimum of the observed remote ports for that IP and
whose state is "ESTABLISHED" whenever "ESTABLISHED" occurs among the
observed states. -/
theorem C5_connection_aggregator (tailscale_ip : String)
    (resolve : String → Option String) (raw : List RawConn) :
    (((get_active_connections tailscale_ip resolve raw).map
        ConnectionInfo.ip).Nodup) ∧
    (∀ rip, rip ∈ (filteredConns tailscale_ip raw).map (fun t => t.1) →
      ∃ ci,
        (get_active_connections tailscale_ip resolve raw).filter
          (fun c => c.ip = rip) = [ci] ∧
        ci.port = (observedPorts tailscale_ip raw rip).min? ∧
        ("ESTABLISHED" ∈ observedStates tailscale_ip raw rip →
          ci.state = some "ESTABLISHED")) := by
  have hbm := buildMap_eq_foldl tailscale_ip raw
  have hnodup_keys : ((buildMap tailscale_ip raw).map Prod.fst).Nodup := by
    rw [hbm]
    exact nodup_keys_foldl (filteredConns tailscale_ip raw) [] (by simp)
  constructor
  · have hmapeq : (get_active_connections tailscale_ip resolve raw).map
        ConnectionInfo.ip = (buildMap tailscale_ip raw).map Prod.fst := by
      rw [get_active_connections, List.map_map]
      exact List.map_congr_left (fun p _ => rfl)
    rw [hmapeq]
    exact hnodup_keys
  · intro rip hrip
    have hsome : (lookupAgg
        ((filteredConns tailscale_ip raw).foldl stepConn []) rip).isSome := by
      rw [foldl_lookup_isSome]
      exact Or.inr hrip
    obtain ⟨agg, hagg⟩ := Option.isSome_iff_exists.mp hsome
    have haggbm : lookupAgg (buildMap tailscale_ip raw) rip = some agg := by
      rw [hbm]
      exact hagg
    have hfilter := filter_key_of_nodup (buildMap tailscale_ip raw) rip agg
      hnodup_keys haggbm
    refine ⟨peerToConnInfo resolve (rip, agg), ?_, ?_, ?_⟩
    · calc (get_active_connections tailscale_ip resolve raw).filter
            (fun c => c.ip = rip)
          = ((buildMap tailscale_ip raw).filter (fun p => p.1 = rip)).map
              (peerToConnInfo resolve) := by
            rw [get_active_connections, List.filter_map]
            congr 1
        _ = [(rip, agg)].map (peerToConnInfo resolve) := by rw [hfilter]
        _ = _ := rfl
    · show agg.ports.min? = (observedPorts tailscale_ip raw rip).min?
      apply min?_eq_of_mem_iff
      intro p
      have h1 := foldl_mem_ports (filteredConns tailscale_ip raw) [] rip p
      simp only [hagg] at h1
      constructor
      · intro hp
        rcases h1.mp ⟨agg, rfl, hp⟩ with ⟨agg', heq, _⟩ | h
        · exact absurd heq (by simp [lookupAgg])
        · exact h
      · intro hp
        obtain ⟨agg', heq, hmem⟩ := h1.mpr (Or.inr hp)
        rw [Option.some_inj] at heq
        subst heq
        exact hmem
    · intro hest
      show reprState agg.states = some "ESTABLISHED"
      have h1 := foldl_mem_states (filteredConns tailscale_ip raw) [] rip
        "ESTABLISHED"
      simp only [hagg] at h1
      have hmem : "ESTABLISHED" ∈ agg.states := by
        obtain ⟨agg', heq, hmem⟩ := h1.mpr (Or.inr hest)
        rw [Option.some_inj] at heq
        subst heq
        exact hmem
      rw [reprState, if_pos hmem]

/-- C5 witness: over `rawC5` the aggregator emits exactly one row for
100.64.0.2, with port 22 (the minimum of 80 and 22) and state
"ESTABLISHED". -/
theorem C5_connection_aggregator_witness :
    (get_active_connections "100.64.0.1" (fun _ => none) rawC5).filter
      (fun c => c.ip = "100.64.0.2") = [ciC5] ∧
    ciC5.port = some 22 ∧ ciC5.state = some "ESTABLISHED" := by
  obtain ⟨ci, h1, h2, h3⟩ :=
    (C5_connection_aggregator "100.64.0.1" (fun _ => none) rawC5).2
      "100.64.0.2" (by decide)
  have hcomp : (get_active_connections "100.64.0.1" (fun _ => none)
      rawC5).filter (fun c => c.ip = "100.64.0.2") = [ciC5] := by decide
  have hci : ci = ciC5 := by
    have h12 := h1.symm.trans hcomp
    injection h12
  subst hci
  exact ⟨h1, by rw [h2]; decide, h3 (by decide)⟩

end TailscaleMonitor
